import Mathlib

/-!
Shallow embedding of `src/interpolator.py` of the cube-spline-interpolator
repository.

The source's double-precision numbers are modelled by `ℚ`: every operation the
source performs (addition, subtraction, multiplication, division) is a field
operation, so on the inputs appearing in the theorems below rational
arithmetic mirrors the source computation exactly.  Fallible operations
(list indexing that can raise `IndexError` in Python) are modelled with
`Option`; loops are translated to structural recursion so that every
definition evaluates by `decide` / `rfl`.
-/

/-- The `Spline` dataclass of the source: one coefficient record per sample
index, representing the cubic `a + b*δ + c*δ²/2 + d*δ³/6` anchored at `x`. -/
structure Spline where
  a : ℚ
  b : ℚ
  c : ℚ
  d : ℚ
  x : ℚ

/-- Forward sweep of `solve_equations_system`: the pair `(alpha[i], beta[i])`.
`alpha[0] = beta[0] = 0` is the `np.zeros` initialisation; for `i ≥ 1` the
source recurrence is transcribed literally, in particular
`divider = current_delta * (alpha[i-1] + 2.0 * (1 + next_delta))`.
The source only ever reads entries with `i ≤ len(arguments) - 2`; beyond that
range the out-of-list reads below default to `0` and the values are unused. -/
def alphaBeta (args res : List ℚ) : ℕ → ℚ × ℚ
  | 0 => (0, 0)
  | i + 1 =>
    let p := alphaBeta args res i
    let currentDelta := args.getD (i + 1) 0 - args.getD i 0
    let nextDelta := args.getD (i + 2) 0 - args.getD (i + 1) 0
    let F := 6 * ((res.getD (i + 2) 0 - res.getD (i + 1) 0) / nextDelta
      - (res.getD (i + 1) 0 - res.getD i 0) / currentDelta)
    let divider := currentDelta * (p.1 + 2 * (1 + nextDelta))
    (-nextDelta / divider, (F - currentDelta * p.2) / divider)

/-- Backward sweep of `solve_equations_system`, fuel-indexed so that the
recursion is structural: `c[i] = alpha[i] * c[i+1] + beta[i]` for
`1 ≤ i ≤ n - 2`, while `c[0]` and `c[n-1]` stay at the `0` set by `build`
("Required condition").  Fuel `n - i` always suffices, see `cCoef`. -/
def cCoefAux (args res : List ℚ) : ℕ → ℕ → ℚ
  | 0, _ => 0
  | fuel + 1, i =>
    if i = 0 ∨ args.length - 1 ≤ i then 0
    else (alphaBeta args res i).1 * cCoefAux args res fuel (i + 1)
      + (alphaBeta args res i).2

/-- The `c` coefficient of record `i` after `solve_equations_system` ran.
The chain `c[i] → c[i+1] → ⋯` stops at `i = n - 1`, so `n - i` steps of fuel
always complete the backward sweep. -/
def cCoef (args res : List ℚ) (i : ℕ) : ℚ :=
  cCoefAux args res (args.length - i) i

/-- The `d` coefficient of record `i`, from the backward sweep at the end of
`build`: `d[i] = (c[i] - c[i-1]) / delta` for `i ≥ 1`; `d[0]` keeps its
initial value `0` (the sweep runs `range(lines - 1, 0, -1)`). -/
def dCoef (args res : List ℚ) (i : ℕ) : ℚ :=
  if i = 0 then 0
  else (cCoef args res i - cCoef args res (i - 1))
    / (args.getD i 0 - args.getD (i - 1) 0)

/-- The `b` coefficient of record `i`, from the backward sweep at the end of
`build`: `b[i] = delta*(2*c[i] + c[i-1])/6 + (results[i] - results[i-1])/delta`
for `i ≥ 1`; `b[0]` keeps its initial value `0`. -/
def bCoef (args res : List ℚ) (i : ℕ) : ℚ :=
  if i = 0 then 0
  else
    (args.getD i 0 - args.getD (i - 1) 0)
        * (2 * cCoef args res i + cCoef args res (i - 1)) / 6
      + (res.getD i 0 - res.getD (i - 1) 0)
        / (args.getD i 0 - args.getD (i - 1) 0)

/-- `CubicSplineInterpolator.build`: one coefficient record per sample index,
`a[i] = results[i]`, `x[i] = arguments[i]`, and `b`, `c`, `d` as produced by
`solve_equations_system` and the final backward sweep. -/
def build (args res : List ℚ) : List Spline :=
  (List.range args.length).map fun i =>
    { a := res.getD i 0
      b := bCoef args res i
      c := cCoef args res i
      d := dCoef args res i
      x := args.getD i 0 }

/-- CPython's `bisect_left` loop, fuel-indexed (the `while lo < hi` loop of
`bisect_left` halves `hi - lo` each step, so `len(a)` fuel always suffices):
`mid = (lo + hi) / 2`; if `a[mid] < x` then `lo = mid + 1` else `hi = mid`. -/
def bisectLeftAux (a : List ℚ) (x : ℚ) : ℕ → ℕ → ℕ → ℕ
  | 0, lo, _ => lo
  | fuel + 1, lo, hi =>
    if lo < hi then
      if a.getD ((lo + hi) / 2) 0 < x then
        bisectLeftAux a x fuel ((lo + hi) / 2 + 1) hi
      else
        bisectLeftAux a x fuel lo ((lo + hi) / 2)
    else lo

/-- `bisect.bisect_left(a, x)` with the default bounds `lo = 0`,
`hi = len(a)`. -/
def bisect_left (a : List ℚ) (x : ℚ) : ℕ :=
  bisectLeftAux a x a.length 0 a.length

/-- The cubic evaluation of `interpolate`:
`a + b*δ + c*δ²/2 + d*δ³/6` with `δ = value - x`. -/
def evalSpline (s : Spline) (value : ℚ) : ℚ :=
  s.a + s.b * (value - s.x) + s.c * (value - s.x) ^ 2 / 2
    + s.d * (value - s.x) ^ 3 / 6

/-- First derivative (in `value`) of the cubic `evalSpline s`. -/
def evalSplineDeriv (s : Spline) (value : ℚ) : ℚ :=
  s.b + s.c * (value - s.x) + s.d * (value - s.x) ^ 2 / 2

/-- Second derivative (in `value`) of the cubic `evalSpline s`. -/
def evalSplineSecond (s : Spline) (value : ℚ) : ℚ :=
  s.c + s.d * (value - s.x)

/-- `CubicSplineInterpolator.interpolate`: locate the record with
`bisect_left` and evaluate its cubic.  `self.splines[index]` raises
`IndexError` when the index is out of range, modelled by `none`. -/
def interpolate (args res : List ℚ) (value : ℚ) : Option ℚ :=
  ((build args res).get? (bisect_left args value)).map fun s =>
    evalSpline s value

/-- The `CubicSplineInterpolator` instance state after `__init__`: the three
stored inputs, the spline built once from `function_arguments`/`results`, and
the interpolation of every spline argument. -/
structure CubicSplineInterpolator where
  function_arguments : List ℚ
  results : List ℚ
  spline_arguments : List ℚ
  splines : List Spline
  interpolated_data : List (Option ℚ)

/-- The `__init__` constructor: store the inputs, call `build` once, and
interpolate each spline argument in order. -/
def CubicSplineInterpolator.make (fa res sa : List ℚ) :
    CubicSplineInterpolator :=
  { function_arguments := fa
    results := res
    spline_arguments := sa
    splines := build fa res
    interpolated_data := sa.map (interpolate fa res) }

/-- `get_interpolation_error`, transcribed literally: the maximum over
`spline_arguments` of `function(arg) - next(iter(self.interpolated_data))`.
`next(iter(...))` re-creates the iterator on every generator step, so every
query is compared against the FIRST interpolated value.  `none` models the
exceptions of the empty cases (`max` of an empty generator, `next` on an empty
iterator) and of a failed first interpolation. -/
def get_interpolation_error (args res sargs : List ℚ) (f : ℚ → ℚ) :
    Option ℚ :=
  match sargs with
  | [] => none
  | q0 :: rest =>
    (interpolate args res q0).map fun v0 =>
      rest.foldl (fun m q => max m (f q - v0)) (f q0 - v0)

/-- Modelled from the spec: the error metric as the claim words it,
`max` over the query points of `trueFunction(query_i) - evaluate(query_i)` —
each query compared against its own interpolated value.  Stated from the
spec's words only, for comparison with `get_interpolation_error`. -/
def errorPointwiseSpec (args res sargs : List ℚ) (f : ℚ → ℚ) : Option ℚ :=
  match sargs with
  | [] => none
  | q0 :: rest =>
    (interpolate args res q0).bind fun v0 =>
      rest.foldl
        (fun acc q => acc.bind fun m =>
          (interpolate args res q).map fun v => max m (f q - v))
        (some (f q0 - v0))

/-- The conditions under which the source constructor raises no Python
exception while building the spline: the argument list is nonempty
(`splines[0]` and `splines[lines-1]` are indexed), `results` has at least as
many entries as `function_arguments` (`results[i]` is read for every
`i < lines`), every knot spacing is nonzero (each spacing is the denominator
of a plain-float division in `build`'s backward sweep, and the spacings are
the denominators inside `F`), and every forward-sweep `divider` is nonzero
(so the numpy arithmetic stays finite and is mirrored exactly by `ℚ`;
a zero numpy divider would still raise nothing, only produce non-finite
values). -/
def buildNoError (args res : List ℚ) : Bool :=
  decide (1 ≤ args.length) && decide (args.length ≤ res.length)
    && ((List.range args.length).all fun i =>
      decide (i = 0) || decide (args.getD i 0 - args.getD (i - 1) 0 ≠ 0))
    && ((List.range args.length).all fun i =>
      (decide (i = 0) || decide (args.length - 1 ≤ i))
        || decide ((args.getD i 0 - args.getD (i - 1) 0)
            * ((alphaBeta args res (i - 1)).1
              + 2 * (1 + (args.getD (i + 1) 0 - args.getD i 0))) ≠ 0))

example : bisect_left [0, 1, 2] (1/2) = 1 := by with_unfolding_all decide
example : bisect_left [0, 1, 2] 1 = 1 := by with_unfolding_all decide
example : bisect_left [0, 1, 2] (-3) = 0 := by with_unfolding_all decide
example : bisect_left [0, 1, 2] 7 = 3 := by with_unfolding_all decide
example : cCoef [0, 2, 3] [0, 1, 0] 1 = -9/8 := by with_unfolding_all decide
example : bCoef [0, 2, 3] [0, 1, 0] 1 = -1/4 := by with_unfolding_all decide
example : interpolate [0, 1] [3, 5] (1/2) = some 4 := by with_unfolding_all decide

/-- In a strictly ascending list, earlier entries are smaller. -/
theorem getD_lt_getD (a : List ℚ) (ha : a.Pairwise (· < ·)) {i j : ℕ}
    (hij : i < j) (hj : j < a.length) : a.getD i 0 < a.getD j 0 := by
  have hi : i < a.length := lt_trans hij hj
  rw [List.getD_eq_getElem?_getD, List.getD_eq_getElem?_getD,
    List.getElem?_eq_getElem hi, List.getElem?_eq_getElem hj]
  simpa using List.pairwise_iff_getElem.mp ha i j hi hj hij

/-- Lower-bound specification: exactly the first `m` entries of `a` are
`< x`.  For a strictly ascending `a` this characterises `bisect_left`. -/
def lbSpec (a : List ℚ) (x : ℚ) (m : ℕ) : Prop :=
  m ≤ a.length ∧ (∀ k, k < m → a.getD k 0 < x)
    ∧ ∀ k, m ≤ k → k < a.length → ¬ a.getD k 0 < x

/-- Loop invariant of the `bisect_left` binary search: if everything below
`lo` is `< x` and everything from `hi` on is not, the search returns the
lower-bound index. -/
theorem bisectLeftAux_lbSpec (a : List ℚ) (x : ℚ) (ha : a.Pairwise (· < ·)) :
    ∀ fuel lo hi, lo ≤ hi → hi ≤ a.length → hi - lo ≤ fuel →
      (∀ k, k < lo → a.getD k 0 < x) →
      (∀ k, hi ≤ k → k < a.length → ¬ a.getD k 0 < x) →
      lbSpec a x (bisectLeftAux a x fuel lo hi) := by
  intro fuel
  induction fuel with
  | zero =>
    intro lo hi hlo hhi hfuel hlow hhigh
    have heq : lo = hi := by omega
    subst heq
    show lbSpec a x lo
    exact ⟨by omega, hlow, hhigh⟩
  | succ n ih =>
    intro lo hi hlo hhi hfuel hlow hhigh
    have hstep : bisectLeftAux a x (n + 1) lo hi
        = if lo < hi then
            (if a.getD ((lo + hi) / 2) 0 < x then
              bisectLeftAux a x n ((lo + hi) / 2 + 1) hi
            else
              bisectLeftAux a x n lo ((lo + hi) / 2))
          else lo := rfl
    by_cases hlt : lo < hi
    · have hmidlo : lo ≤ (lo + hi) / 2 := by omega
      have hmidhi : (lo + hi) / 2 < hi := by omega
      by_cases hcmp : a.getD ((lo + hi) / 2) 0 < x
      · rw [hstep, if_pos hlt, if_pos hcmp]
        apply ih ((lo + hi) / 2 + 1) hi (by omega) hhi (by omega) _ hhigh
        intro k hk
        rcases Nat.lt_or_ge k ((lo + hi) / 2) with h | h
        · exact lt_trans (getD_lt_getD a ha h (by omega)) hcmp
        · have heq : k = (lo + hi) / 2 := by omega
          rw [heq]
          exact hcmp
      · rw [hstep, if_pos hlt, if_neg hcmp]
        apply ih lo ((lo + hi) / 2) hmidlo (by omega) (by omega) hlow
        intro k hk1 hk2
        rcases Nat.lt_or_ge ((lo + hi) / 2) k with h | h
        · intro hcon
          exact hcmp (lt_trans (getD_lt_getD a ha h hk2) hcon)
        · have heq : k = (lo + hi) / 2 := by omega
          rw [heq]
          exact hcmp
    · rw [hstep, if_neg hlt]
      have heq : lo = hi := by omega
      subst heq
      exact ⟨by omega, hlow, hhigh⟩

/-- For strictly ascending `a`, `bisect_left a x` is the lower-bound index. -/
theorem bisect_left_lbSpec (a : List ℚ) (x : ℚ) (ha : a.Pairwise (· < ·)) :
    lbSpec a x (bisect_left a x) :=
  bisectLeftAux_lbSpec a x ha a.length 0 a.length (Nat.zero_le _) le_rfl
    (by omega) (fun k hk => absurd hk (Nat.not_lt_zero k))
    (fun k hk1 hk2 => absurd hk2 (Nat.not_lt.mpr hk1))

/-- The lower-bound index is unique. -/
theorem lbSpec_unique {a : List ℚ} {x : ℚ} {m₁ m₂ : ℕ}
    (h₁ : lbSpec a x m₁) (h₂ : lbSpec a x m₂) : m₁ = m₂ := by
  by_contra hne
  rcases Nat.lt_or_ge m₁ m₂ with h | h
  · exact h₁.2.2 m₁ le_rfl (lt_of_lt_of_le h h₂.1) (h₂.2.1 m₁ h)
  · have h' : m₂ < m₁ := by omega
    exact h₂.2.2 m₂ le_rfl (lt_of_lt_of_le h' h₁.1) (h₁.2.1 m₂ h')

/-- A query equal to the `i`-th knot of a strictly ascending list binds to
index `i` itself. -/
theorem bisect_left_at_knot (a : List ℚ) (ha : a.Pairwise (· < ·)) (i : ℕ)
    (hi : i < a.length) : bisect_left a (a.getD i 0) = i := by
  apply lbSpec_unique (bisect_left_lbSpec a _ ha)
  refine ⟨le_of_lt hi, fun k hk => getD_lt_getD a ha hk hi,
    fun k hk1 hk2 hcon => ?_⟩
  rcases Nat.eq_or_lt_of_le hk1 with h | h
  · rw [← h] at hcon
    exact lt_irrefl _ hcon
  · exact lt_asymm (getD_lt_getD a ha h hk2) hcon

/-- A query strictly below the first knot yields lookup index `0`. -/
theorem bisect_left_below (a : List ℚ) (ha : a.Pairwise (· < ·)) {x : ℚ}
    (hx : x < a.getD 0 0) : bisect_left a x = 0 := by
  apply lbSpec_unique (bisect_left_lbSpec a x ha)
  refine ⟨Nat.zero_le _, fun k hk => absurd hk (Nat.not_lt_zero k),
    fun k _ hk2 hcon => ?_⟩
  have hle : a.getD 0 0 ≤ a.getD k 0 := by
    rcases Nat.eq_zero_or_pos k with h | h
    · rw [h]
    · exact le_of_lt (getD_lt_getD a ha h hk2)
  exact absurd (lt_trans hcon hx) (not_lt.mpr hle)

/-- A query strictly above the last knot yields the out-of-range lookup
index `length`. -/
theorem bisect_left_above (a : List ℚ) (ha : a.Pairwise (· < ·)) {x : ℚ}
    (hx : a.getD (a.length - 1) 0 < x) : bisect_left a x = a.length := by
  apply lbSpec_unique (bisect_left_lbSpec a x ha)
  refine ⟨le_rfl, fun k hk => ?_,
    fun k hk1 hk2 => absurd hk2 (Nat.not_lt.mpr hk1)⟩
  rcases Nat.lt_or_ge k (a.length - 1) with h | h
  · exact lt_trans (getD_lt_getD a ha h (by omega)) hx
  · have heq : k = a.length - 1 := by omega
    rw [heq]
    exact hx

/-- `build` produces exactly one record per sample. -/
theorem build_length (args res : List ℚ) :
    (build args res).length = args.length := by
  simp [build]

/-- The `i`-th record produced by `build`, in closed form. -/
theorem build_get? (args res : List ℚ) {i : ℕ} (hi : i < args.length) :
    (build args res).get? i = some
      { a := res.getD i 0, b := bCoef args res i, c := cCoef args res i,
        d := dCoef args res i, x := args.getD i 0 } := by
  simp [build, List.get?_eq_getElem?, List.getElem?_map,
    List.getElem?_range hi]

/-- The backward sweep never touches `c[0]`. -/
theorem cCoefAux_zero (args res : List ℚ) (fuel : ℕ) :
    cCoefAux args res fuel 0 = 0 := by
  cases fuel <;> simp [cCoefAux]

/-- The backward sweep never touches `c[i]` for `i ≥ length - 1`. -/
theorem cCoefAux_last (args res : List ℚ) (fuel : ℕ) {i : ℕ}
    (h : args.length - 1 ≤ i) : cCoefAux args res fuel i = 0 := by
  cases fuel <;> simp [cCoefAux, h]

/-- `c[0] = 0`: the first record keeps the "required condition" value. -/
theorem cCoef_zero (args res : List ℚ) : cCoef args res 0 = 0 :=
  cCoefAux_zero args res _

/-- `c[i] = 0` for every `i ≥ length - 1`, in particular the last record. -/
theorem cCoef_last (args res : List ℚ) {i : ℕ}
    (h : args.length - 1 ≤ i) : cCoef args res i = 0 :=
  cCoefAux_last args res _ h

/-- Claim C3: for every valid input (strictly ascending arguments, matching
lengths, `N ≥ 2`) and every sample index `i`, the binary search binds the
query `arguments[i]` to index `i` itself (`delta = 0`), and evaluating the
built spline exactly at that knot returns exactly `results[i]`. -/
theorem evaluate_at_knot (args res : List ℚ) (ha : args.Pairwise (· < ·))
    (hlen : args.length = res.length) (hn : 2 ≤ args.length)
    (i : ℕ) (hi : i < args.length) :
    bisect_left args (args.getD i 0) = i ∧
    interpolate args res (args.getD i 0) = some (res.getD i 0) := by
  have hb := bisect_left_at_knot args ha i hi
  refine ⟨hb, ?_⟩
  rw [interpolate, hb, build_get? args res hi]
  simp [evalSpline]

/-- Witness for `evaluate_at_knot` at `arguments = [0, 1, 2]`,
`results = [5, 7, 9]`, `i = 1`. -/
theorem evaluate_at_knot_witness :
    bisect_left [0, 1, 2] (([0, 1, 2] : List ℚ).getD 1 0) = 1 ∧
    interpolate [0, 1, 2] [5, 7, 9] (([0, 1, 2] : List ℚ).getD 1 0)
      = some (([5, 7, 9] : List ℚ).getD 1 0) :=
  evaluate_at_knot [0, 1, 2] [5, 7, 9] (by with_unfolding_all decide)
    rfl (by decide) 1 (by decide)

/-- Claim C4: natural boundary condition: the coefficient sequence returned
by `build` has `c = 0` in its first and last records.  The embedding is
functional: `build`'s result is final (`solve_equations_system`'s backward
sweep runs only over interior indices, the `b`/`d` sweep never writes `c`),
and `interpolate` only reads it, so these are the values every later
operation sees. -/
theorem natural_boundary (args res : List ℚ) (ha : args.Pairwise (· < ·))
    (hlen : args.length = res.length) (hn : 2 ≤ args.length) :
    ((build args res).get? 0).map Spline.c = some 0 ∧
    ((build args res).get? (args.length - 1)).map Spline.c = some 0 := by
  rw [build_get? args res (show 0 < args.length by omega),
    build_get? args res (show args.length - 1 < args.length by omega)]
  simp [cCoef_zero, cCoef_last args res (le_refl (args.length - 1))]

/-- Witness for `natural_boundary` at `arguments = [0, 1, 2]`,
`results = [5, 7, 9]`. -/
theorem natural_boundary_witness :
    ((build [0, 1, 2] [5, 7, 9]).get? 0).map Spline.c = some 0 ∧
    ((build [0, 1, 2] [5, 7, 9]).get?
      (([0, 1, 2] : List ℚ).length - 1)).map Spline.c = some 0 :=
  natural_boundary [0, 1, 2] [5, 7, 9] (by with_unfolding_all decide)
    rfl (by decide)

/-- Claim C7: a query strictly below the first knot yields lookup index `0`;
a query strictly above the last knot yields the out-of-range index `N`, so
the subsequent access into the `N`-element coefficient list is out of bounds
(the `none` branch of the `Option`-indexed embedding is reached). -/
theorem out_of_range_lookup (args res : List ℚ) (ha : args.Pairwise (· < ·))
    (hn : 1 ≤ args.length) {qlow qhigh : ℚ}
    (hlow : qlow < args.getD 0 0)
    (hhigh : args.getD (args.length - 1) 0 < qhigh) :
    bisect_left args qlow = 0 ∧
    bisect_left args qhigh = args.length ∧
    interpolate args res qhigh = none := by
  refine ⟨bisect_left_below args ha hlow, bisect_left_above args ha hhigh, ?_⟩
  rw [interpolate, bisect_left_above args ha hhigh, List.get?_eq_getElem?,
    List.getElem?_eq_none (le_of_eq (build_length args res))]
  rfl

/-- Witness for `out_of_range_lookup` at `arguments = [0, 1]`,
`results = [3, 4]`, queries `-1` (below) and `5` (above). -/
theorem out_of_range_lookup_witness :
    bisect_left [0, 1] (-1) = 0 ∧
    bisect_left [0, 1] 5 = ([0, 1] : List ℚ).length ∧
    interpolate [0, 1] [3, 4] 5 = none :=
  out_of_range_lookup [0, 1] [3, 4] (by with_unfolding_all decide)
    (by decide) (by with_unfolding_all decide) (by with_unfolding_all decide)

/-- Claim C8: segment lookup is monotone in the query: `q₁ ≤ q₂` gives
`bisect_left args q₁ ≤ bisect_left args q₂`, so an ascending query sequence
produces a non-decreasing sequence of lookup indices. -/
theorem lookup_monotone (args : List ℚ) (ha : args.Pairwise (· < ·))
    (q₁ q₂ : ℚ) (h : q₁ ≤ q₂) :
    bisect_left args q₁ ≤ bisect_left args q₂ := by
  have h₁ := bisect_left_lbSpec args q₁ ha
  have h₂ := bisect_left_lbSpec args q₂ ha
  by_contra hcon
  push_neg at hcon
  have hlt : args.getD (bisect_left args q₂) 0 < q₁ := h₁.2.1 _ hcon
  exact h₂.2.2 (bisect_left args q₂) le_rfl
    (lt_of_lt_of_le hcon h₁.1) (lt_of_lt_of_le hlt h)

/-- Witness for `lookup_monotone` at `arguments = [0, 1, 2]`,
queries `1/2 ≤ 3/2`. -/
theorem lookup_monotone_witness :
    bisect_left [0, 1, 2] (1/2) ≤ bisect_left [0, 1, 2] (3/2) :=
  lookup_monotone [0, 1, 2] (by with_unfolding_all decide) (1/2) (3/2)
    (by norm_num)

/-- Claim C9: `build` is a pure deterministic function of the argument and
result sequences: two constructor runs on identical `function_arguments` and
`results` (with any `spline_arguments`) produce coefficient sequences that
are identical record for record. -/
theorem build_deterministic (fa₁ res₁ sa₁ fa₂ res₂ sa₂ : List ℚ)
    (hfa : fa₁ = fa₂) (hres : res₁ = res₂) (i : ℕ) :
    (CubicSplineInterpolator.make fa₁ res₁ sa₁).splines.get? i
      = (CubicSplineInterpolator.make fa₂ res₂ sa₂).splines.get? i := by
  subst hfa
  subst hres
  rfl

/-- Witness for `build_deterministic` at `[0, 1]`, `[3, 4]` with two
different spline-argument lists. -/
theorem build_deterministic_witness :
    (CubicSplineInterpolator.make [0, 1] [3, 4] [0]).splines.get? 0
      = (CubicSplineInterpolator.make [0, 1] [3, 4] [1]).splines.get? 0 :=
  build_deterministic [0, 1] [3, 4] [0] [0, 1] [3, 4] [1] rfl rfl 0

/-- Claim C10: a query strictly below the first knot is silently clamped to
the first sample value: the lookup yields index `0`, record `0` keeps
`b = c = d = 0` (no sweep ever writes them), so the cubic collapses to
`a = results[0]` at any negative delta. -/
theorem below_range_clamps (args res : List ℚ) (ha : args.Pairwise (· < ·))
    (hlen : args.length = res.length) (hn : 2 ≤ args.length)
    {value : ℚ} (hv : value < args.getD 0 0) :
    interpolate args res value = some (res.getD 0 0) := by
  rw [interpolate, bisect_left_below args ha hv,
    build_get? args res (show 0 < args.length by omega)]
  simp [evalSpline, bCoef, dCoef, cCoef_zero]

/-- Witness for `below_range_clamps` at `arguments = [0, 1]`,
`results = [3, 4]`, query `-1`. -/
theorem below_range_clamps_witness :
    interpolate [0, 1] [3, 4] (-1) = some (([3, 4] : List ℚ).getD 0 0) :=
  below_range_clamps [0, 1] [3, 4] (by with_unfolding_all decide)
    rfl (by decide) (by with_unfolding_all decide)

/-- Claim C1 (refuted, code bug): at the valid input `arguments = [0, 2, 3]`,
`results = [0, 1, 0]` the two cubics meeting at the interior knot `x = 2`
(segment 1 anchored at `x[1] = 2` evaluated at `delta = 0`, segment 2
anchored at `x[2] = 3` evaluated at `delta = 2 - 3 = -1`) agree in value and
in second derivative but NOT in first derivative (`-1/4` from segment 1
versus `-5/8` from segment 2): the source's tridiagonal divider
`current_delta * (alpha[i-1] + 2.0 * (1 + next_delta))` solves the continuity
system only for unit knot spacing. -/
theorem continuity_first_deriv_failure :
    evalSpline ((build [0, 2, 3] [0, 1, 0]).getD 1 ⟨0, 0, 0, 0, 0⟩) 2
      = evalSpline ((build [0, 2, 3] [0, 1, 0]).getD 2 ⟨0, 0, 0, 0, 0⟩) 2 ∧
    evalSplineSecond ((build [0, 2, 3] [0, 1, 0]).getD 1 ⟨0, 0, 0, 0, 0⟩) 2
      = evalSplineSecond ((build [0, 2, 3] [0, 1, 0]).getD 2 ⟨0, 0, 0, 0, 0⟩) 2 ∧
    evalSplineDeriv ((build [0, 2, 3] [0, 1, 0]).getD 1 ⟨0, 0, 0, 0, 0⟩) 2
      ≠ evalSplineDeriv ((build [0, 2, 3] [0, 1, 0]).getD 2 ⟨0, 0, 0, 0, 0⟩) 2 :=
  ⟨by with_unfolding_all decide, by with_unfolding_all decide,
    by with_unfolding_all decide⟩

/-- Claim C2 (refuted, code bug): construction performs no input validation:
on the non-ascending argument list `[0, 3, 1]` (the spec's Scenario 3 shape)
with results `[1, 2, 3]`, none of the runtime-error conditions of the
constructor occurs (`buildNoError`) and `build` returns a complete 3-record
spline — no `InvalidInputError` exists anywhere in the source. -/
theorem construction_accepts_invalid_input :
    buildNoError [0, 3, 1] [1, 2, 3] = true ∧
    (build [0, 3, 1] [1, 2, 3]).length = 3 :=
  ⟨by with_unfolding_all decide, by with_unfolding_all decide⟩

/-- Claim C5: minimal input `N = 2`, arguments `[0, 1]`: for any pair of
result values both `c` coefficients are `0` and the spline degenerates to the
straight line through the two samples — evaluating at `1/2` returns
`(results[0] + results[1]) / 2`. -/
theorem minimal_input_linear (y₀ y₁ : ℚ) :
    (build [0, 1] [y₀, y₁]).map Spline.c = [0, 0] ∧
    interpolate [0, 1] [y₀, y₁] (1/2) = some ((y₀ + y₁) / 2) := by
  have h0 : cCoef [0, 1] [y₀, y₁] 0 = 0 := cCoef_zero _ _
  have h1 : cCoef [0, 1] [y₀, y₁] 1 = 0 := cCoef_last _ _ (by decide)
  have hr : List.range 2 = [0, 1] := rfl
  constructor
  · simp [build, hr, h0, h1]
  · have hb : bisect_left [0, 1] (1/2) = 1 := by with_unfolding_all decide
    rw [interpolate, hb,
      build_get? [0, 1] [y₀, y₁] (show 1 < ([0, 1] : List ℚ).length by decide)]
    simp [evalSpline, bCoef, dCoef, h0, h1]
    ring

/-- Claim C6 (refuted, code bug): `get_interpolation_error` compares every
query against the FIRST interpolated value (`next(iter(...))` restarts the
iterator on each generator step), not against its own: at
`arguments = results = queries = [0, 1]` with true function `id`, the source
metric reports `1` while the claim's pointwise metric gives `0`. -/
theorem error_metric_uses_first_value :
    get_interpolation_error [0, 1] [0, 1] [0, 1] (fun t => t) = some 1 ∧
    errorPointwiseSpec [0, 1] [0, 1] [0, 1] (fun t => t) = some 0 :=
  ⟨by with_unfolding_all decide, by with_unfolding_all decide⟩
